import Mathlib

/-!
Formal model of the figma-bridge-mcp core: the SSE-based RPC client
(`FigmaClient` in `src/clients/figma-client.ts`, retry/backoff, result cache,
status classification, response correlation) and the progressive-fallback
extraction pipeline (`StreamingExtractor` in
`src/services/streaming-extractor.ts`), together with the efficiency score of
the `ProgressTracker`.

Strings from the source are modelled as `List Char` (`Chars`) so that the
regular-expression scans of the TypeScript code become executable recursive
functions.  Real time (Date.now timestamps, actual timer racing) is not
modelled; instead, the outcome of every remote call is an oracle parameter, and
timestamps are explicit arguments where the code compares them (the cache).
JavaScript numbers are modelled as `ℚ` where fractional arithmetic occurs and
as `ℕ` elsewhere.
-/

namespace FigmaBridge

abbrev Chars := List Char

/-- Test whether the character list `s` begins with the character list `p`. -/
def charsStartsWith : Chars → Chars → Bool
  | _, [] => true
  | [], _ :: _ => false
  | c :: cs, p :: ps => c = p && charsStartsWith cs ps

/-- Matcher for the regex fragment `\d{4,}` used by `detectComplexLayout`:
true iff the list contains a run of at least four consecutive digits. -/
def hasFourDigitRun : Chars → Bool
  | a :: b :: c :: d :: rest =>
      (a.isDigit && b.isDigit && c.isDigit && d.isDigit)
        || hasFourDigitRun (b :: c :: d :: rest)
  | _ => false

/-- Number of hyphen characters: the source counts the global matches of a
hyphen regex on the node id. -/
def countHyphens (cs : Chars) : Nat := cs.countP (· = '-')

/-- Matcher for the anchored regex `^(13\d\d|1[4-9]\d\d|[2-9]\d\d\d)` of
`detectComplexLayout` ("specific ranges that tend to be complex layouts"). -/
def isInComplexRange : Chars → Bool
  | a :: b :: c :: d :: _ =>
      (a = '1' && b = '3' && c.isDigit && d.isDigit)
        || (a = '1' && (b = '4' || b = '5' || b = '6' || b = '7' || b = '8' || b = '9')
              && c.isDigit && d.isDigit)
        || (a.isDigit && a ≠ '0' && a ≠ '1' && b.isDigit && c.isDigit && d.isDigit)
  | _ => false

/-- Attempt to match `node-id=([^&]+)` at the head of the list: requires the
literal `node-id=` followed by at least one non-`&` character; the capture is
the maximal run of non-`&` characters (the regex `+` is greedy). -/
def nodeIdAt (cs : Chars) : Option Chars :=
  if charsStartsWith cs ("node-id=".toList) then
    let run := (cs.drop 8).takeWhile (· ≠ '&')
    if run.isEmpty then none else some run
  else none

/-- Leftmost match of the unanchored regex `node-id=([^&]+)` as used by
`detectComplexLayout` (`url.match(/node-id=([^&]+)/)`). -/
def findNodeId : Chars → Option Chars
  | [] => none
  | c :: cs =>
    match nodeIdAt (c :: cs) with
    | some r => some r
    | none => findNodeId cs

/-- Leftmost match of `[?&]node-id=([^&]+)` as used by
`FigmaClient.parseFigmaUrl` (the node id must follow a `?` or `&`). -/
def findNodeIdQ : Chars → Option Chars
  | [] => none
  | c :: cs =>
    if c = '?' || c = '&' then
      match nodeIdAt cs with
      | some r => some r
      | none => findNodeIdQ cs
    else findNodeIdQ cs

/-- Character class `[a-zA-Z0-9]` of the file-id capture group. -/
def isAlnum (c : Char) : Bool := c.isAlpha || c.isDigit

/-- Maximal nonempty alphanumeric run, for the capture `([a-zA-Z0-9]+)`. -/
def alnumRun (cs : Chars) : Option Chars :=
  let run := cs.takeWhile isAlnum
  if run.isEmpty then none else some run

/-- Attempt to match `figma\.com\/(?:file|design)\/([a-zA-Z0-9]+)` at the head
of the list. -/
def figmaIdAt (cs : Chars) : Option Chars :=
  if charsStartsWith cs ("figma.com/".toList) then
    let rest := cs.drop 10
    if charsStartsWith rest ("file/".toList) then alnumRun (rest.drop 5)
    else if charsStartsWith rest ("design/".toList) then alnumRun (rest.drop 7)
    else none
  else none

/-- Leftmost match of the file-id pattern over the whole URL. -/
def findFigmaId : Chars → Option Chars
  | [] => none
  | c :: cs =>
    match figmaIdAt (c :: cs) with
    | some r => some r
    | none => findFigmaId cs

/-- `nodeIdMatch[1].replace(/%3A/g, ':')` — replace every occurrence of the
three-character sequence `%3A` by a colon. -/
def decodeColons : Chars → Chars
  | '%' :: '3' :: 'A' :: rest => ':' :: decodeColons rest
  | c :: rest => c :: decodeColons rest
  | [] => []

/-- Error value corresponding to the `FigmaClientError` class of
`src/types/figma.ts` (message, code, optional HTTP status). -/
structure FigmaClientError where
  message : String
  code : String
  statusCode : Option Nat
deriving DecidableEq, Repr

/-- The `FigmaServerUnavailableError` subclass (fixed message, code
`SERVER_UNAVAILABLE`, status 503). -/
def FigmaServerUnavailableError : FigmaClientError :=
  ⟨"Figma MCP server is not available. Please ensure Figma desktop app is running.",
   "SERVER_UNAVAILABLE", some 503⟩

/-- The `FigmaAuthenticationError` subclass (code `AUTH_FAILED`, status 401). -/
def FigmaAuthenticationError : FigmaClientError :=
  ⟨"Authentication failed. Please check your Figma permissions.", "AUTH_FAILED", some 401⟩

/-- The error thrown by `parseFigmaUrl` on a URL that does not match. -/
def invalidUrlError : FigmaClientError :=
  ⟨"Invalid Figma URL format", "INVALID_URL", none⟩

/-- A thrown JavaScript value: either a `FigmaClientError` (or subclass) or a
plain `Error` carrying only a message. -/
inductive Thrown
  | figma (e : FigmaClientError)
  | js (message : String)
deriving DecidableEq, Repr

/-- The `.message` property read by the pipeline's catch handler. -/
def Thrown.message : Thrown → String
  | .figma e => e.message
  | .js m => m

/-- Result of `FigmaClient.parseFigmaUrl`. -/
structure ParsedUrl where
  fileId : Chars
  nodeId : Option Chars
deriving DecidableEq, Repr

/-- `FigmaClient.parseFigmaUrl`: extract the file id (throwing
`invalidUrlError` when the URL pattern does not match) and optionally the
node id, decoding `%3A` into `:`. -/
def parseFigmaUrl (url : Chars) : Except Thrown ParsedUrl :=
  match findFigmaId url with
  | none => .error (.figma invalidUrlError)
  | some fid =>
    match findNodeIdQ url with
    | some nid => .ok ⟨fid, some (decodeColons nid)⟩
    | none => .ok ⟨fid, none⟩

/-- `StreamingExtractor.detectComplexLayout`: a URL is complex when its node id
has a four-digit run, at least two hyphens, or matches the complex range. -/
def detectComplexLayout : Option Chars → Bool
  | none => false
  | some url =>
    match findNodeId url with
    | none => false
    | some nodeId =>
        hasFourDigitRun nodeId || decide (2 ≤ countHyphens nodeId) || isInComplexRange nodeId

/-- Per-stage timeouts (milliseconds, exact rational arithmetic). -/
structure StageTimeouts where
  «variables» : ℚ
  components : ℚ
  code : ℚ
deriving DecidableEq, Repr

/-- `DEFAULT_STAGE_TIMEOUTS` from `src/types/performance.ts`. -/
def DEFAULT_STAGE_TIMEOUTS : StageTimeouts := ⟨5000, 10000, 15000⟩

/-- Options object of `StreamingFigmaContextInput` as consumed by the
extractor (fields it never reads are omitted). -/
structure ExtractOptions where
  includeVariants : Option Bool := none
  includeTokens : Option Bool := none
  includeCode : Option Bool := none
  maxWaitTime : Option ℚ := none
deriving DecidableEq, Repr

/-- Pre-extracted Figma data optionally supplied by the caller; every field is
optional, matching the dynamic `any` access of the source. -/
structure FigmaDataInput where
  fileId : Option Chars := none
  nodeId : Option Chars := none
  url : Option Chars := none
  code : Option String := none
  components : Option (List String) := none
  «variables» : Option (List String) := none
  codeConnectMap : Option (List String) := none
deriving DecidableEq, Repr

/-- `StreamingFigmaContextInput`. -/
structure ExtractInput where
  url : Option Chars := none
  figmaData : Option FigmaDataInput := none
  options : Option ExtractOptions := none
deriving DecidableEq, Repr

/-- `StreamingExtractor.getStageTimeouts`: `input.options?.maxWaitTime || 15000`
(so an explicit 0 falls back to the default, as in JavaScript), with tighter
bounds when the layout is detected as complex.  The JavaScript literals
`0.2`, `0.3`, `0.5`, `0.6` are exact rationals here. -/
def getStageTimeouts (input : ExtractInput) : StageTimeouts :=
  let maxWaitTime : ℚ :=
    match input.options with
    | some o => match o.maxWaitTime with
      | some m => if m = 0 then 15000 else m
      | none => 15000
    | none => 15000
  if detectComplexLayout input.url then
    ⟨min 3000 (maxWaitTime * (2 / 10)),
     min 5000 (maxWaitTime * (3 / 10)),
     min 8000 (maxWaitTime * (5 / 10))⟩
  else
    ⟨min DEFAULT_STAGE_TIMEOUTS.variables (maxWaitTime * (3 / 10)),
     min DEFAULT_STAGE_TIMEOUTS.components (maxWaitTime * (6 / 10)),
     min DEFAULT_STAGE_TIMEOUTS.code maxWaitTime⟩

/-! ### The streaming extractor pipeline

Remote calls are represented by an oracle (`FigmaClientModel`): each of the
three extraction methods is a function from its invocation index (how many
times the pipeline has already invoked that method) to an outcome.  A timer
win and a thrown error are indistinguishable after `safeExtract*`, whose
`catch` collapses both into `{success: false}`, so an outcome is either the
parsed data or `failed`. -/

/-- Outcome of one `safeExtract*` call: `{success: true, data}` or
`{success: false}`. -/
inductive SubResult (α : Type)
  | ok (data : α)
  | failed
deriving DecidableEq, Repr

/-- Payload of `getVariableDefinitions` as read by the extractor
(`data?.variables`); the items themselves are opaque strings. -/
structure VariablesData where
  «variables» : List String
deriving DecidableEq, Repr

/-- Payload of `getCodeConnectMap` as read by the extractor (`data?.mappings`). -/
structure ComponentsData where
  mappings : List String
deriving DecidableEq, Repr

/-- Payload of `getCode` as read by the extractor (`data?.code`,
`data?.components`); `code` is a string that may be empty. -/
structure CodeData where
  code : String
  components : List String
deriving DecidableEq, Repr

/-- Oracle describing the behavior of the underlying `FigmaClient` during one
pipeline invocation. -/
structure FigmaClientModel where
  testConnectionResult : Bool
  variablesCall : Nat → SubResult VariablesData
  componentsCall : Nat → SubResult ComponentsData
  codeCall : Nat → SubResult CodeData

/-- Which client method an invocation hit, for the call trace. -/
inductive CallKind
  | connTest
  | vars
  | components
  | code
deriving DecidableEq, Repr

/-- The `metadata` object attached by the emergency fallback (`extractedAt`, a
wall-clock timestamp, is outside the model). -/
structure Metadata where
  extractionMethod : String
  figmaFileId : Chars
  figmaNodeId : Option Chars
  complexityDetected : Bool
  recommendedApproach : String
deriving DecidableEq, Repr

/-- The `finalResult` object mutated by the pipeline and returned as
`figmaData`. -/
structure FinalResult where
  fileId : Chars
  nodeId : Option Chars
  url : Option Chars
  code : Option String
  components : List String
  «variables» : List String
  codeConnectMap : List String
  metadata : Option Metadata
deriving DecidableEq, Repr

/-- A progress event as surfaced to `onProgress` (the `duration` and
`partialData` fields depend on wall-clock time and are outside the model);
`percentage` is clamped to [0, 100] by `ProgressTracker.updateStage`. -/
structure ProgressEvent where
  stage : String
  percentage : ℚ
  message : String
deriving DecidableEq, Repr

/-- Build the event `ProgressTracker.updateStage` hands to `onProgress`. -/
def mkProgressEvent (stage : String) (percentage : ℚ) (message : String) : ProgressEvent :=
  ⟨stage, max 0 (min 100 percentage), message⟩

/-- Mutable state threaded through the pipeline: the result object, the
`warnings` and `errors` arrays, plus the trace of client calls and emitted
progress events. -/
structure PipeState where
  result : FinalResult
  warnings : List String
  errors : List String
  calls : List CallKind
  events : List ProgressEvent
deriving Repr

/-- Record a progress callback. -/
def PipeState.emit (s : PipeState) (e : ProgressEvent) : PipeState :=
  { s with events := s.events ++ [e] }

/-- Append to the `warnings` array. -/
def PipeState.warn (s : PipeState) (w : String) : PipeState :=
  { s with warnings := s.warnings ++ [w] }

/-- Number of calls of a given kind made so far (the oracle's invocation
index). -/
def PipeState.countKind (s : PipeState) (k : CallKind) : Nat :=
  s.calls.count k

/-- JavaScript `x || null` on an optional string: the empty string is falsy. -/
def orNullStr : Option String → Option String
  | some s => if s = "" then none else some s
  | none => none

/-- JavaScript `a || b` on optional character strings: missing or empty falls
through to `b`. -/
def orFalsy : Option Chars → Option Chars → Option Chars
  | some a, b => if a.isEmpty then b else some a
  | none, b => b

/-- `safeExtractVariables`: race of `getVariableDefinitions` against a timer;
the oracle already accounts for the timeout value, so the argument only
documents the call shape. -/
def safeExtractVariables (client : FigmaClientModel) (_timeoutMs : ℚ)
    (s : PipeState) : SubResult VariablesData × PipeState :=
  (client.variablesCall (s.countKind .vars), { s with calls := s.calls ++ [CallKind.vars] })

/-- `safeExtractComponents` (`getCodeConnectMap` under a timer). -/
def safeExtractComponents (client : FigmaClientModel) (_timeoutMs : ℚ)
    (s : PipeState) : SubResult ComponentsData × PipeState :=
  (client.componentsCall (s.countKind .components), { s with calls := s.calls ++ [CallKind.components] })

/-- `safeExtractCode` (`getCode` under a timer). -/
def safeExtractCode (client : FigmaClientModel) (_timeoutMs : ℚ)
    (s : PipeState) : SubResult CodeData × PipeState :=
  (client.codeCall (s.countKind .code), { s with calls := s.calls ++ [CallKind.code] })

/-- Phase 3 of the optimal level: code generation (only when requested and a
node id is present). -/
def optimalCodePhase (client : FigmaClientModel) (timeouts : StageTimeouts)
    (nodeId : Option Chars) (shouldIncludeCode isComplexLayout : Bool)
    (s : PipeState) : PipeState :=
  if shouldIncludeCode && nodeId.isSome then
    let s :=
      if isComplexLayout then
        (s.emit (mkProgressEvent "code" 0
          "Complex layout - attempting code generation with aggressive timeout")).warn
          "Complex layout detected. Code generation may timeout gracefully."
      else
        s.emit (mkProgressEvent "code" 0 "Generating React code...")
    match safeExtractCode client timeouts.code s with
    | (.ok cd, s) =>
      let s := { s with result := { s.result with
        code := orNullStr (some cd.code), components := cd.components } }
      s.emit (mkProgressEvent "code" 100 "Code generation completed")
    | (.failed, s) =>
      (s.warn "Code generation timed out - design data still fully available").emit
        (mkProgressEvent "code" 50 "Code generation timed out gracefully")
  else
    s.emit (mkProgressEvent "code" 100 "Code generation skipped")

/-- `tryOptimalExtraction` (level 1): variables, then components (failure
degrades to a warning), then optionally code.  The surrounding `try`/`catch`
of the source is unreachable here because `safeExtract*` never throws and the
progress tracker is total. -/
def tryOptimalExtraction (client : FigmaClientModel) (timeouts : StageTimeouts)
    (nodeId : Option Chars) (shouldIncludeCode isComplexLayout : Bool)
    (s : PipeState) : Bool × PipeState :=
  let s := s.emit (mkProgressEvent "variables" 0 "Extracting design variables...")
  match safeExtractVariables client timeouts.variables s with
  | (.failed, s) => (false, s)
  | (.ok vd, s) =>
    let s := { s with result := { s.result with «variables» := vd.variables } }
    let s := s.emit (mkProgressEvent "variables" 100
      ("Variables: " ++ toString s.result.variables.length ++ " found"))
    let s := s.emit (mkProgressEvent "components" 0 "Analyzing components...")
    let s :=
      match safeExtractComponents client timeouts.components s with
      | (.ok cd, s) =>
        let s := { s with result := { s.result with codeConnectMap := cd.mappings } }
        s.emit (mkProgressEvent "components" 100
          ("Components: " ++ toString s.result.codeConnectMap.length ++ " mappings"))
      | (.failed, s) => s.warn "Component mapping failed, but variables are available"
    (true, optimalCodePhase client timeouts nodeId shouldIncludeCode isComplexLayout s)

/-- `tryBalancedExtraction` (level 2): variables and components with the fixed
fast timeouts 3000/5000 ms, code skipped. -/
def tryBalancedExtraction (client : FigmaClientModel) (s : PipeState) : Bool × PipeState :=
  let s := s.emit (mkProgressEvent "variables" 0 "Fast variables extraction...")
  match safeExtractVariables client 3000 s with
  | (.failed, s) => (false, s)
  | (.ok vd, s) =>
    let s := { s with result := { s.result with «variables» := vd.variables } }
    let s := s.emit (mkProgressEvent "variables" 100
      ("Variables: " ++ toString s.result.variables.length ++ " found"))
    let s := s.emit (mkProgressEvent "components" 0 "Fast components extraction...")
    let s :=
      match safeExtractComponents client 5000 s with
      | (.ok cd, s) =>
        let s := { s with result := { s.result with codeConnectMap := cd.mappings } }
        s.emit (mkProgressEvent "components" 100
          ("Components: " ++ toString s.result.codeConnectMap.length ++ " mappings"))
      | (.failed, s) => s
    (true, s.emit (mkProgressEvent "code" 100 "Code generation skipped for performance"))

/-- `tryMinimalExtraction` (level 3): variables only, 2000 ms timeout. -/
def tryMinimalExtraction (client : FigmaClientModel) (s : PipeState) : Bool × PipeState :=
  let s := s.emit (mkProgressEvent "variables" 0 "Minimal variables extraction...")
  match safeExtractVariables client 2000 s with
  | (.failed, s) => (false, s)
  | (.ok vd, s) =>
    let s := { s with result := { s.result with «variables» := vd.variables } }
    let s := s.emit (mkProgressEvent "variables" 100
      ("Variables: " ++ toString s.result.variables.length ++ " found"))
    let s := s.emit (mkProgressEvent "components" 100 "Components skipped for performance")
    (true, s.emit (mkProgressEvent "code" 100 "Code generation skipped for performance"))

/-- `executeEmergencyFallback` (level 4): no network call; re-parse the URL
(propagating a parse failure, as the source would), clear the collections and
attach the basic metadata. -/
def executeEmergencyFallback (url : Chars) (nodeId : Option Chars)
    (s : PipeState) : Except (Thrown × PipeState) PipeState :=
  match parseFigmaUrl url with
  | .error e => .error (e, s)
  | .ok urlData =>
    let s := { s with result := { s.result with
      «variables» := [], components := [], codeConnectMap := [], code := none } }
    let basicMetadata : Metadata :=
      { extractionMethod := "emergency_fallback"
        figmaFileId := urlData.fileId
        figmaNodeId := orFalsy nodeId urlData.nodeId
        complexityDetected := detectComplexLayout (some url)
        recommendedApproach := "Consider using IDE integration with Figma MCP for better results" }
    let s := s.warn "Emergency fallback active - Figma MCP server may be overloaded or design is extremely complex"
    let s := s.warn "Basic file information extracted from URL"
    let s := s.warn "For better results: 1) Try smaller frame selections, 2) Use IDE integration, 3) Retry later"
    let s := { s with result := { s.result with metadata := some basicMetadata } }
    let s := s.emit (mkProgressEvent "variables" 100 "Emergency fallback: Basic info extracted")
    let s := s.emit (mkProgressEvent "components" 100 "Emergency fallback: File metadata available")
    .ok (s.emit (mkProgressEvent "code" 100 "Emergency fallback: URL data parsed"))

/-- `input.options?.includeCode !== false`. -/
def shouldIncludeCodeOf (input : ExtractInput) : Bool :=
  !((input.options.bind (·.includeCode)) == some false)

/-- `executeProgressiveFallbackExtraction`: the four-level ladder, each failed
level appending its fallback warning. -/
def executeProgressiveFallbackExtraction (client : FigmaClientModel)
    (input : ExtractInput) (url : Chars) (nodeId : Option Chars)
    (isComplexLayout : Bool) (s : PipeState) : Except (Thrown × PipeState) PipeState :=
  let timeouts := getStageTimeouts input
  let shouldIncludeCode := shouldIncludeCodeOf input
  match tryOptimalExtraction client timeouts nodeId shouldIncludeCode isComplexLayout s with
  | (true, s) => .ok s
  | (false, s) =>
    let s := s.warn "Falling back to essential data extraction (variables + components only)"
    match tryBalancedExtraction client s with
    | (true, s) => .ok s
    | (false, s) =>
      let s := s.warn "Falling back to minimal extraction (variables only)"
      match tryMinimalExtraction client s with
      | (true, s) => .ok s
      | (false, s) =>
        let s := s.warn "Using emergency fallback - providing basic file information"
        executeEmergencyFallback url nodeId s

/-- `executeExtractionStages`: complexity detection, the fallback ladder, and
the final completion event. -/
def executeExtractionStages (client : FigmaClientModel) (input : ExtractInput)
    (url : Chars) (s : PipeState) : Except (Thrown × PipeState) PipeState :=
  let nodeId := s.result.nodeId
  let isComplexLayout := detectComplexLayout input.url
  match executeProgressiveFallbackExtraction client input url nodeId isComplexLayout s with
  | .ok s => .ok (s.emit (mkProgressEvent "complete" 100 "Extraction completed"))
  | .error e => .error e

/-- `input.figmaData && typeof ... === 'object' && 'fileId' in input.figmaData`. -/
def hasValidFigmaData (input : ExtractInput) : Bool :=
  match input.figmaData with
  | some d => d.fileId.isSome
  | none => false

/-- Initial `finalResult` / empty arrays (`url: input.url || ''`). -/
def initState (input : ExtractInput) : PipeState :=
  { result :=
      { fileId := [], nodeId := none, url := some (input.url.getD []),
        code := none, components := [], «variables» := [], codeConnectMap := [],
        metadata := none }
    warnings := [], errors := [], calls := [], events := [] }

/-- The standalone branch of the `try` body: require a URL, run the connection
preflight (throwing `FigmaServerUnavailableError` when it reports false), parse
the URL and run the extraction stages.  The second component is the exception
escaping the `try` body, if any. -/
def standalonePath (client : FigmaClientModel) (input : ExtractInput)
    (s : PipeState) : PipeState × Option Thrown :=
  match input.url with
  | none => (s, some (.js "Either figmaData or url must be provided"))
  | some u =>
    if u.isEmpty then (s, some (.js "Either figmaData or url must be provided"))
    else
      let s := { s with calls := s.calls ++ [CallKind.connTest] }
      if !client.testConnectionResult then
        (s, some (.figma FigmaServerUnavailableError))
      else
        match parseFigmaUrl u with
        | .error e => (s, some e)
        | .ok pd =>
          let s := { s with result := { s.result with
            fileId := pd.fileId, nodeId := pd.nodeId, url := some u } }
          match executeExtractionStages client input u s with
          | .ok s => (s, none)
          | .error (e, s) => (s, some e)

/-- The pass-through branch: the supplied `figmaData` replaces `finalResult`
verbatim (with the JavaScript `|| []` / `|| null` defaults) and the pipeline
reports completion without touching the client. -/
def passthroughResult (d : FigmaDataInput) (s : PipeState) : PipeState :=
  let s := s.emit (mkProgressEvent "complete" 100 "Using pre-extracted data")
  { s with result :=
      { fileId := d.fileId.getD []
        nodeId := d.nodeId
        url := d.url
        code := orNullStr d.code
        components := d.components.getD []
        «variables» := d.variables.getD []
        codeConnectMap := d.codeConnectMap.getD []
        metadata := none } }

/-- The body of the `try` block of `extractWithProgress`. -/
def extractBody (client : FigmaClientModel) (input : ExtractInput) :
    PipeState × Option Thrown :=
  let s := initState input
  match input.figmaData with
  | some d =>
    if d.fileId.isSome then (passthroughResult d s, none)
    else standalonePath client input s
  | none => standalonePath client input s

/-- The result record handed to the caller. -/
structure StreamingExtractionResult where
  success : Bool
  figmaData : FinalResult
  warnings : List String
  errors : List String
deriving DecidableEq, Repr

/-- `buildSuccessResult`. -/
def buildSuccessResult (s : PipeState) : StreamingExtractionResult :=
  { success := true, figmaData := s.result, warnings := s.warnings, errors := s.errors }

/-- The `catch` handler followed by `buildErrorResult`: the error message is
appended to `errors` and the promise still resolves. -/
def buildErrorResult (s : PipeState) (e : Thrown) : StreamingExtractionResult :=
  { success := false, figmaData := s.result, warnings := s.warnings,
    errors := s.errors ++ [e.message] }

/-- How the promise returned by `extractWithProgress` settles. -/
inductive PipelineOutcome
  | resolved (r : StreamingExtractionResult)
  | rejected (e : Thrown)
deriving DecidableEq, Repr

/-- `extractWithProgress` as a promise outcome: the `catch` clause converts
every exception escaping the body into a resolved error result (its own body —
an array push, a progress update and `buildErrorResult` — is total, so the
handler itself cannot throw). -/
def extractOutcome (client : FigmaClientModel) (input : ExtractInput) : PipelineOutcome :=
  match extractBody client input with
  | (s, none) => .resolved (buildSuccessResult s)
  | (s, some e) => .resolved (buildErrorResult s e)

/-- The resolved value of `extractWithProgress`. -/
def extractWithProgress (client : FigmaClientModel) (input : ExtractInput) :
    StreamingExtractionResult :=
  match extractBody client input with
  | (s, none) => buildSuccessResult s
  | (s, some e) => buildErrorResult s e

/-- Final pipeline state (call trace and emitted events included; the `catch`
handler emits one more failure event). -/
def extractTrace (client : FigmaClientModel) (input : ExtractInput) : PipeState :=
  match extractBody client input with
  | (s, none) => s
  | (s, some e) => s.emit (mkProgressEvent "complete" 0 ("Extraction failed: " ++ e.message))

/-! ### Concrete scenarios -/

/-- A client whose preflight succeeds but whose every extraction call fails or
times out (scenario C). -/
def clientAllFail : FigmaClientModel :=
  { testConnectionResult := true
    variablesCall := fun _ => .failed
    componentsCall := fun _ => .failed
    codeCall := fun _ => .failed }

/-- An unreachable client (`testConnection()` reports false, scenario A). -/
def clientDown : FigmaClientModel :=
  { testConnectionResult := false
    variablesCall := fun _ => .failed
    componentsCall := fun _ => .failed
    codeCall := fun _ => .failed }

/-- The standalone URL of scenario A. -/
def urlA : Chars := "https://x.com/design/ABC123/Foo?node-id=10-20".toList

/-- Standalone input for scenario A. -/
def inputA : ExtractInput := { url := some urlA }

/-- The value `extractWithProgress` resolves with in scenario A. -/
def scenarioAResult : StreamingExtractionResult := extractWithProgress clientDown inputA

/-! ### The result cache (`getFromCache` / `setCache`) -/

/-- A cache entry: `{data, timestamp, ttl}` (times in milliseconds). -/
structure CacheEntry (α : Type) where
  data : α
  timestamp : ℤ
  ttl : ℤ
deriving DecidableEq, Repr

/-- The `Map<string, CacheEntry>` held by the client, as an association list
whose keys are unique (maintained by `setCache`). -/
abbrev CacheMap (α : Type) := List (String × CacheEntry α)

/-- `Map.get`. -/
def mapLookup {α : Type} : CacheMap α → String → Option (CacheEntry α)
  | [], _ => none
  | (k, v) :: rest, key => if k = key then some v else mapLookup rest key

/-- `Map.delete`. -/
def mapDelete {α : Type} (m : CacheMap α) (key : String) : CacheMap α :=
  m.filter (fun p => !(p.1 == key))

/-- `getFromCache` with the current time explicit: a present entry is returned
while `now - timestamp ≤ ttl`; an expired entry is deleted and the read
misses.  The second component is the cache after the read (eviction is lazy —
nothing else is ever swept). -/
def getFromCache {α : Type} (m : CacheMap α) (key : String) (now : ℤ) :
    Option α × CacheMap α :=
  match mapLookup m key with
  | none => (none, m)
  | some entry =>
    if now - entry.timestamp > entry.ttl then (none, mapDelete m key)
    else (some entry.data, m)

/-- `setCache` with the store time explicit (`ttl` is `config.cacheTTL`). -/
def setCache {α : Type} (m : CacheMap α) (key : String) (data : α)
    (now ttl : ℤ) : CacheMap α :=
  (key, ⟨data, now, ttl⟩) :: mapDelete m key

/-! ### Retry with exponential backoff (`makeRequest`) -/

/-- `min(1000 * 2^(attempt - 1), 5000)` — the delay slept after failed
attempt `attempt` (when a further attempt remains). -/
def backoffDelay (attempt : ℕ) : ℕ := min (1000 * 2 ^ (attempt - 1)) 5000

/-- Observable behavior of one `makeRequest` invocation: how many attempts ran,
the delays slept between them, and the final outcome.  `Except.error none`
models the `throw lastError!` reached with `lastError` never assigned (only
possible when `retryAttempts = 0`). -/
structure RetryTrace (α : Type) where
  attemptsMade : ℕ
  delays : List ℕ
  result : Except (Option FigmaClientError) α
deriving Repr

/-- The retry loop of `makeRequest`.  `fuel` is the number of remaining loop
iterations (`makeRequest` starts it at `retryAttempts` with `attempt = 1`);
the oracle gives the outcome of the `attempt`-th `makeRequestWithSSE` call. -/
def retryGo {α : Type} (oracle : ℕ → Except FigmaClientError α) (maxA : ℕ) :
    ℕ → ℕ → Option FigmaClientError → List ℕ → RetryTrace α
  | 0, attempt, lastErr, delays => ⟨attempt - 1, delays.reverse, .error lastErr⟩
  | fuel + 1, attempt, _lastErr, delays =>
    match oracle attempt with
    | .ok r => ⟨attempt, delays.reverse, .ok r⟩
    | .error e =>
      retryGo oracle maxA fuel (attempt + 1) (some e)
        (if attempt < maxA then backoffDelay attempt :: delays else delays)

/-- `makeRequest`: run `makeRequestWithSSE` up to `retryAttempts` times,
sleeping `backoffDelay attempt` between consecutive attempts, surfacing the
last error when every attempt fails. -/
def makeRequest {α : Type} (oracle : ℕ → Except FigmaClientError α)
    (retryAttempts : ℕ) : RetryTrace α :=
  retryGo oracle retryAttempts retryAttempts 1 none []

/-- A uniformly failing oracle for the retry witness. -/
def failingOracle : ℕ → Except FigmaClientError Unit :=
  fun n => .error ⟨"Response timeout", "TIMEOUT", some n⟩

/-! ### Session-POST status handling -/

/-- The status check of `makeRequestWithSSE` step 3 (the JSON-RPC envelope
POSTed to the session endpoint during a Transport call): anything but exactly
202 throws `UNEXPECTED_RESPONSE` carrying the status; 202 means "accepted,
response arrives via the stream". -/
def sseDispatchCheck (status : ℕ) : Option FigmaClientError :=
  if status ≠ 202 then
    some ⟨"Unexpected session response: " ++ toString status, "UNEXPECTED_RESPONSE", some status⟩
  else none

/-- `response.ok`: status in [200, 299]. -/
def responseOk (status : ℕ) : Bool := decide (200 ≤ status) && decide (status ≤ 299)

/-- The status classification of `makeSessionRequest` (the POST used by
`testConnection`): non-2xx statuses are classified 503 → `ServerUnavailable`,
401 → `AuthenticationError`, otherwise a generic `HTTP_ERROR` carrying the
status code.  (`statusText` is not modelled, so the generic message carries
only the code.) -/
def makeSessionRequestStatusCheck (status : ℕ) : Option FigmaClientError :=
  if !responseOk status then
    if status = 503 then some FigmaServerUnavailableError
    else if status = 401 then some FigmaAuthenticationError
    else some ⟨"HTTP " ++ toString status, "HTTP_ERROR", some status⟩
  else none

/-! ### Efficiency score (`ProgressTracker.getEfficiencyScore`) -/

/-- The metric fields `getEfficiencyScore` reads (durations in ms). -/
structure PerformanceMetrics where
  totalDuration : ℚ
  timeoutOccurred : Bool
  cacheHits : ℕ
  retryAttempts : ℕ
deriving DecidableEq, Repr

/-- `getEfficiencyScore`: start at 100; above the 15 s target subtract one
point per second over (capped at 30); subtract 20 on any timeout; subtract 5
per retry; add 2 per cache hit; clamp to [0, 100]. -/
def getEfficiencyScore (m : PerformanceMetrics) : ℚ :=
  let score : ℚ := 100
  let score := if m.totalDuration > 15000 then
    score - min 30 ((m.totalDuration - 15000) / 1000) else score
  let score := if m.timeoutOccurred then score - 20 else score
  let score := score - m.retryAttempts * 5
  let score := score + m.cacheHits * 2
  max 0 (min 100 score)

/-- Modelled from the spec: the closed-form score of C9 — `100` minus
`min(30, seconds over the 15-second target)`, minus 20 on timeout, minus 5 per
retry, plus 2 per cache hit, clamped to [0, 100]. -/
def specEfficiencyScore (m : PerformanceMetrics) : ℚ :=
  max 0 (min 100 (100 - min 30 (max 0 (m.totalDuration - 15000) / 1000)
    - (if m.timeoutOccurred then 20 else 0)
    - 5 * m.retryAttempts + 2 * m.cacheHits))

/-! ### Complexity heuristic and stage timeouts (scenario D) -/

/-- A URL whose node id `1311-9692` has a four-digit run. -/
def urlComplexD : Chars := "figma.com/design/ABC123?node-id=1311-9692".toList

/-- A URL with the simple node id `12-34`. -/
def urlSimpleD : Chars := "figma.com/design/ABC123?node-id=12-34".toList

/-- Standalone input with an explicit `maxWaitTime`. -/
def inputWithWait (url : Chars) (m : ℚ) : ExtractInput :=
  { url := some url, options := some { maxWaitTime := some m } }

/-! ### SSE response correlation (`makeRequestWithSSE`, step 4) -/

/-- The parsed JSON of a `data:` line as the correlation loop inspects it:
`id` as sent by the server, and for the `result` / `error` fields whether the
field is present and whether its value is JavaScript-truthy (`none` = absent,
`some b` = present with truthiness `b`).  `payload` stands for the rest of the
response object. -/
structure RpcData where
  id : Option Nat := none
  result : Option Bool := none
  error : Option Bool := none
  payload : String := ""
deriving DecidableEq, Repr

/-- The acceptance test `responseData.result || responseData.error`
(JavaScript truthiness, not mere field presence). -/
def isTruthyResponse (d : RpcData) : Bool := d.result == some true || d.error == some true

/-- `String.prototype.trim` (strip whitespace from both ends). -/
def trimChars (cs : Chars) : Chars :=
  ((cs.dropWhile Char.isWhitespace).reverse.dropWhile Char.isWhitespace).reverse

/-- The scanning loop over the complete lines of the buffered stream.  The
flag is true directly after an `event: message` line was matched (the inner
scan that skips blank lines and then expects a `data: ` line); a rejected or
malformed data line resumes the outer scan after it, exactly as the source's
index arithmetic does. -/
def scanGo (parse : Chars → Option RpcData) : Bool → List Chars → Option RpcData
  | _, [] => none
  | false, line :: rest =>
    if charsStartsWith (trimChars line) ("event: message".toList) then
      scanGo parse true rest
    else scanGo parse false rest
  | true, l :: rest =>
    if (trimChars l).isEmpty then scanGo parse true rest
    else if charsStartsWith l ("data: ".toList) then
      match parse (l.drop 6) with
      | some d => if isTruthyResponse d then some d else scanGo parse false rest
      | none => scanGo parse false rest
    else scanGo parse false rest

/-- One pass of the correlation scan over a chunk's complete lines. -/
def scanLines (parse : Chars → Option RpcData) (lines : List Chars) : Option RpcData :=
  scanGo parse false lines

/-- `buffer.split('\n')` (the result is always nonempty; the last element is
the trailing incomplete line). -/
def splitOnNewline : Chars → List Chars
  | [] => [[]]
  | c :: rest =>
    if c = '\n' then [] :: splitOnNewline rest
    else
      match splitOnNewline rest with
      | l :: ls => (c :: l) :: ls
      | [] => [[c]]

/-- The read loop of step 4: buffer partial lines across chunks, scan the
complete lines of each chunk, accept the first match and overwrite its `id`
with the request's id; a stream that ends without a match rejects with
`STREAM_ENDED`.  (The wall-clock response timeout is outside the model.) -/
def listenChunks (parse : Chars → Option RpcData) (requestId : Nat) :
    Chars → List Chars → Except FigmaClientError RpcData
  | _, [] => .error ⟨"SSE stream ended without response", "STREAM_ENDED", none⟩
  | buffer, c :: cs =>
    if c.isEmpty then listenChunks parse requestId buffer cs
    else
      match scanLines parse (splitOnNewline (buffer ++ c)).dropLast with
      | some d => .ok { d with id := some requestId }
      | none => listenChunks parse requestId ((splitOnNewline (buffer ++ c)).getLastD []) cs

/-- An SSE frame: an `event:` line followed by a `data:` line and a blank
separator. -/
structure Frame where
  eventName : Chars
  data : Chars
deriving DecidableEq, Repr

/-- Event name and data of a well-formed frame are nonempty and contain no
whitespace (compact JSON). -/
def wellFormedFrame (f : Frame) : Bool :=
  !f.eventName.isEmpty && f.eventName.all (fun c => !c.isWhitespace) &&
  !f.data.isEmpty && f.data.all (fun c => !c.isWhitespace)

/-- The three lines a frame contributes to the stream. -/
def frameLines (f : Frame) : List Chars :=
  [("event: ".toList) ++ f.eventName, ("data: ".toList) ++ f.data, []]

/-- The complete lines of a stream made of the given frames. -/
def streamLines (fs : List Frame) : List Chars := (fs.map frameLines).flatten

/-- Code-side acceptance of a single frame: a `message` event whose data
parses and has a truthy `result` or `error`. -/
def acceptsFrame (parse : Chars → Option RpcData) (f : Frame) : Option RpcData :=
  if charsStartsWith f.eventName ("message".toList) then
    match parse f.data with
    | some d => if isTruthyResponse d then some d else none
    | none => none
  else none

/-- First frame accepted by the code's criterion. -/
def firstAccepted (parse : Chars → Option RpcData) : List Frame → Option RpcData
  | [] => none
  | f :: fs =>
    match acceptsFrame parse f with
    | some d => some d
    | none => firstAccepted parse fs

/-- Modelled from the spec: C3's reading of acceptance — the first `message`
frame whose data parses as JSON and merely *contains* a `result` or `error`
field, regardless of the value's truthiness. -/
def specFirstWithField (parse : Chars → Option RpcData) : List Frame → Option RpcData
  | [] => none
  | f :: fs =>
    if charsStartsWith f.eventName ("message".toList) then
      match parse f.data with
      | some d => if d.result.isSome || d.error.isSome then some d
                  else specFirstWithField parse fs
      | none => specFirstWithField parse fs
    else specFirstWithField parse fs

/-- Parse oracle of the counterexample: frame data `A` is JSON whose `result`
field is present but falsy (e.g. `result: null`), frame data `B` has a truthy
`result`. -/
def parseCE : Chars → Option RpcData := fun cs =>
  if cs = "A".toList then some { id := some 7, result := some false }
  else if cs = "B".toList then some { id := some 8, result := some true }
  else none

/-- Two message frames: the first merely contains a `result` field (falsy),
the second has a truthy one. -/
def fsCE : List Frame := [⟨"message".toList, "A".toList⟩, ⟨"message".toList, "B".toList⟩]

/-! ### Theorems -/

example : detectComplexLayout (some ("figma.com/design/ABC123?node-id=1311-9692".toList)) = true := by
  decide

example : detectComplexLayout (some ("figma.com/design/ABC123?node-id=12-34".toList)) = false := by
  decide

example : parseFigmaUrl ("https://www.figma.com/design/ABC123/Foo?node-id=10-20".toList)
    = .ok ⟨"ABC123".toList, some ("10-20".toList)⟩ := by
  rfl

example : parseFigmaUrl ("https://x.com/design/ABC123/Foo?node-id=10-20".toList)
    = .error (.figma invalidUrlError) := by
  rfl

/-- In standalone mode the body of `extractWithProgress` takes the
`standalonePath` branch. -/
theorem extractBody_standalone (client : FigmaClientModel) (input : ExtractInput)
    (hfd : hasValidFigmaData input = false) :
    extractBody client input = standalonePath client input (initState input) := by
  unfold extractBody
  unfold hasValidFigmaData at hfd
  cases h : input.figmaData with
  | none => simp
  | some d =>
    rw [h] at hfd
    simp only [] at hfd
    simp [hfd]

/-- C1: in standalone mode with a working preflight, a parseable URL and every
extraction call failing or timing out at every level, the pipeline still
resolves successfully with the emergency-fallback result: the URL-parsed file
id, empty collections, no code, and `extractionMethod = "emergency_fallback"`. -/
theorem emergency_guarantee (client : FigmaClientModel) (input : ExtractInput)
    (u : Chars) (pd : ParsedUrl)
    (hfd : hasValidFigmaData input = false)
    (hurl : input.url = some u)
    (hne : u.isEmpty = false)
    (hconn : client.testConnectionResult = true)
    (hparse : parseFigmaUrl u = .ok pd)
    (hvars : ∀ n, client.variablesCall n = .failed)
    (_hcomp : ∀ n, client.componentsCall n = .failed)
    (_hcode : ∀ n, client.codeCall n = .failed) :
    (extractWithProgress client input).success = true ∧
    (extractWithProgress client input).figmaData.fileId = pd.fileId ∧
    (extractWithProgress client input).figmaData.variables = [] ∧
    (extractWithProgress client input).figmaData.components = [] ∧
    (extractWithProgress client input).figmaData.codeConnectMap = [] ∧
    (extractWithProgress client input).figmaData.code = none ∧
    ((extractWithProgress client input).figmaData.metadata.map Metadata.extractionMethod)
      = some "emergency_fallback" := by
  have hbody := extractBody_standalone client input hfd
  simp [extractWithProgress, hbody, standalonePath, hurl, hne, hconn, hparse,
    executeExtractionStages, executeProgressiveFallbackExtraction,
    tryOptimalExtraction, tryBalancedExtraction, tryMinimalExtraction,
    safeExtractVariables, executeEmergencyFallback, PipeState.countKind, hvars,
    buildSuccessResult, PipeState.emit, PipeState.warn]

/-- Witness for `emergency_guarantee` at scenario C's concrete input. -/
theorem emergency_guarantee_witness :
    (extractWithProgress clientAllFail { url := some ("https://www.figma.com/design/ABC123/Foo?node-id=10-20".toList) }).success = true ∧
    (extractWithProgress clientAllFail { url := some ("https://www.figma.com/design/ABC123/Foo?node-id=10-20".toList) }).figmaData.fileId = "ABC123".toList ∧
    (extractWithProgress clientAllFail { url := some ("https://www.figma.com/design/ABC123/Foo?node-id=10-20".toList) }).figmaData.variables = [] ∧
    (extractWithProgress clientAllFail { url := some ("https://www.figma.com/design/ABC123/Foo?node-id=10-20".toList) }).figmaData.components = [] ∧
    (extractWithProgress clientAllFail { url := some ("https://www.figma.com/design/ABC123/Foo?node-id=10-20".toList) }).figmaData.codeConnectMap = [] ∧
    (extractWithProgress clientAllFail { url := some ("https://www.figma.com/design/ABC123/Foo?node-id=10-20".toList) }).figmaData.code = none ∧
    ((extractWithProgress clientAllFail { url := some ("https://www.figma.com/design/ABC123/Foo?node-id=10-20".toList) }).figmaData.metadata.map Metadata.extractionMethod)
      = some "emergency_fallback" := by
  have h := emergency_guarantee clientAllFail
    { url := some ("https://www.figma.com/design/ABC123/Foo?node-id=10-20".toList) }
    ("https://www.figma.com/design/ABC123/Foo?node-id=10-20".toList)
    ⟨"ABC123".toList, some ("10-20".toList)⟩
    rfl rfl rfl rfl rfl (fun _ => rfl) (fun _ => rfl) (fun _ => rfl)
  exact h

/-- C2 counterexample: with the unreachable client of scenario A, the promise
returned by `extractWithProgress` does not reject — it resolves with
`success = false` and the `ServerUnavailable` message appended to `errors`. -/
theorem preflight_failure_resolves :
    extractOutcome clientDown inputA = PipelineOutcome.resolved scenarioAResult ∧
    scenarioAResult.success = false ∧
    scenarioAResult.errors = [FigmaServerUnavailableError.message] ∧
    extractOutcome clientDown inputA
      ≠ PipelineOutcome.rejected (Thrown.figma FigmaServerUnavailableError) := by
  have h1 : extractOutcome clientDown inputA = PipelineOutcome.resolved scenarioAResult := rfl
  refine ⟨h1, rfl, rfl, ?_⟩
  rw [h1]
  simp

/-- C2 amended: in standalone mode a false `testConnection()` stops the
pipeline before any fallback level runs (the connection probe is the only
client call and no fallback warning is recorded), but instead of rejecting the
promise resolves with `success = false` and the `ServerUnavailable` message in
`errors`. -/
theorem preflight_failure_degrades (client : FigmaClientModel) (input : ExtractInput)
    (u : Chars)
    (hfd : hasValidFigmaData input = false)
    (hurl : input.url = some u)
    (hne : u.isEmpty = false)
    (hconn : client.testConnectionResult = false) :
    (extractWithProgress client input).success = false ∧
    (extractWithProgress client input).errors = [FigmaServerUnavailableError.message] ∧
    (extractWithProgress client input).warnings = [] ∧
    (extractTrace client input).calls = [CallKind.connTest] := by
  have hbody := extractBody_standalone client input hfd
  unfold extractWithProgress extractTrace
  rw [hbody]
  unfold standalonePath
  rw [hurl]
  simp [hne, hconn, buildErrorResult, initState, Thrown.message, PipeState.emit]

/-- Witness for `preflight_failure_degrades` at scenario A. -/
theorem preflight_failure_degrades_witness :
    (extractWithProgress clientDown inputA).success = false ∧
    (extractWithProgress clientDown inputA).errors = [FigmaServerUnavailableError.message] ∧
    (extractWithProgress clientDown inputA).warnings = [] ∧
    (extractTrace clientDown inputA).calls = [CallKind.connTest] :=
  preflight_failure_degrades clientDown inputA urlA rfl rfl rfl rfl

/-- C7: in pass-through mode (supplied `figmaData` with a `fileId`) the
pipeline makes zero client calls — neither `testConnection` nor any extraction
method — immediately reports completion, and resolves successfully with the
supplied data. -/
theorem passthrough_zero_calls (client : FigmaClientModel) (input : ExtractInput)
    (d : FigmaDataInput) (fid : Chars)
    (hd : input.figmaData = some d)
    (hfid : d.fileId = some fid) :
    (extractTrace client input).calls = [] ∧
    (extractTrace client input).events
      = [mkProgressEvent "complete" 100 "Using pre-extracted data"] ∧
    (extractWithProgress client input).success = true ∧
    (extractWithProgress client input).figmaData.fileId = fid ∧
    (extractWithProgress client input).figmaData =
      { fileId := fid, nodeId := d.nodeId, url := d.url, code := orNullStr d.code,
        components := d.components.getD [], «variables» := d.variables.getD [],
        codeConnectMap := d.codeConnectMap.getD [], metadata := none } := by
  unfold extractTrace extractWithProgress extractBody
  rw [hd]
  simp [hfid, passthroughResult, initState, buildSuccessResult, PipeState.emit]

/-- Witness for `passthrough_zero_calls`. -/
theorem passthrough_zero_calls_witness :
    (extractTrace clientDown { figmaData := some { fileId := some ("XYZ".toList) } }).calls = [] ∧
    (extractTrace clientDown { figmaData := some { fileId := some ("XYZ".toList) } }).events
      = [mkProgressEvent "complete" 100 "Using pre-extracted data"] ∧
    (extractWithProgress clientDown { figmaData := some { fileId := some ("XYZ".toList) } }).success = true ∧
    (extractWithProgress clientDown { figmaData := some { fileId := some ("XYZ".toList) } }).figmaData.fileId = "XYZ".toList ∧
    (extractWithProgress clientDown { figmaData := some { fileId := some ("XYZ".toList) } }).figmaData =
      { fileId := "XYZ".toList, nodeId := none, url := none, code := none,
        components := [], «variables» := [], codeConnectMap := [], metadata := none } :=
  passthrough_zero_calls clientDown { figmaData := some { fileId := some ("XYZ".toList) } }
    { fileId := some ("XYZ".toList) } ("XYZ".toList) rfl rfl

/-- C10: `extractWithProgress` never rejects — for every client behavior and
every input the promise resolves, and whenever an exception escapes the `try`
body, its message is appended to the `errors` array and the resolved result
has `success = false`. -/
theorem pipeline_never_rejects (client : FigmaClientModel) (input : ExtractInput) :
    extractOutcome client input = PipelineOutcome.resolved (extractWithProgress client input) ∧
    (∀ s e, extractBody client input = (s, some e) →
      (extractWithProgress client input).success = false ∧
      (extractWithProgress client input).errors = s.errors ++ [e.message]) := by
  constructor
  · unfold extractOutcome extractWithProgress
    rcases extractBody client input with ⟨s, _ | e⟩ <;> rfl
  · intro s e heq
    unfold extractWithProgress
    rw [heq]
    exact ⟨rfl, rfl⟩

/-- Witness for `pipeline_never_rejects`: an input with neither `figmaData`
nor `url` makes the body throw, and the pipeline resolves with that message in
`errors`. -/
theorem pipeline_never_rejects_witness :
    extractOutcome clientDown {} = PipelineOutcome.resolved (extractWithProgress clientDown {}) ∧
    ((extractWithProgress clientDown {}).success = false ∧
      (extractWithProgress clientDown {}).errors
        = [] ++ [(Thrown.js "Either figmaData or url must be provided").message]) :=
  ⟨(pipeline_never_rejects clientDown {}).1,
   (pipeline_never_rejects clientDown {}).2 (initState {})
     (Thrown.js "Either figmaData or url must be provided") rfl⟩

/-- C5: after `set(key)` at `storedAt`, every `get(key)` with
`now − storedAt ≤ ttl` returns the identical stored data and leaves the cache
untouched; a `get(key)` strictly after `storedAt + ttl` misses and removes the
entry. -/
theorem cache_ttl_visibility {α : Type} (m : CacheMap α) (key : String)
    (data : α) (storedAt ttl now : ℤ) :
    (now - storedAt ≤ ttl →
      getFromCache (setCache m key data storedAt ttl) key now
        = (some data, setCache m key data storedAt ttl)) ∧
    (now - storedAt > ttl →
      getFromCache (setCache m key data storedAt ttl) key now
        = (none, mapDelete (setCache m key data storedAt ttl) key)) := by
  constructor
  · intro h
    simp [getFromCache, setCache, mapLookup, not_lt.mpr h]
  · intro h
    simp [getFromCache, setCache, mapLookup, h]

/-- Witness for `cache_ttl_visibility` with the default 5-minute TTL: a hit at
1000 ms, a miss-and-evict at 300001 ms. -/
theorem cache_ttl_visibility_witness :
    ((1000 : ℤ) - 0 ≤ 300000 ∧
      getFromCache (setCache ([] : CacheMap String) "getVariables:u:n" "v" 0 300000)
          "getVariables:u:n" 1000
        = (some "v", setCache ([] : CacheMap String) "getVariables:u:n" "v" 0 300000)) ∧
    ((300001 : ℤ) - 0 > 300000 ∧
      getFromCache (setCache ([] : CacheMap String) "getVariables:u:n" "v" 0 300000)
          "getVariables:u:n" 300001
        = (none, mapDelete (setCache ([] : CacheMap String) "getVariables:u:n" "v" 0 300000)
            "getVariables:u:n")) :=
  ⟨⟨by decide,
    (cache_ttl_visibility ([] : CacheMap String) "getVariables:u:n" "v" 0 300000 1000).1
      (by decide)⟩,
   ⟨by decide,
    (cache_ttl_visibility ([] : CacheMap String) "getVariables:u:n" "v" 0 300000 300001).2
      (by decide)⟩⟩

theorem retryGo_attempts_le {α : Type} (oracle : ℕ → Except FigmaClientError α)
    (maxA : ℕ) : ∀ fuel attempt lastErr delays, attempt + fuel = maxA + 1 →
    (retryGo oracle maxA fuel attempt lastErr delays).attemptsMade ≤ maxA := by
  intro fuel
  induction fuel with
  | zero =>
    intro attempt lastErr delays h
    simp only [retryGo]
    omega
  | succ n ih =>
    intro attempt lastErr delays h
    simp only [retryGo]
    cases oracle attempt with
    | ok r => simp only; omega
    | error e => exact ih (attempt + 1) (some e) _ (by omega)

theorem retryGo_delays_schedule {α : Type} (oracle : ℕ → Except FigmaClientError α)
    (maxA : ℕ) : ∀ fuel attempt lastErr (n : ℕ) (acc : List ℕ),
    attempt + fuel = maxA + 1 → attempt = n + 1 →
    acc.reverse = (List.range n).map (fun k => backoffDelay (k + 1)) →
    ∃ m, (retryGo oracle maxA fuel attempt lastErr acc).delays
        = (List.range m).map (fun k => backoffDelay (k + 1)) := by
  intro fuel
  induction fuel with
  | zero =>
    intro attempt _lastErr n acc _ _ hacc
    exact ⟨n, by simp only [retryGo]; exact hacc⟩
  | succ f ih =>
    intro attempt lastErr n acc hinv hat hacc
    simp only [retryGo]
    cases oracle attempt with
    | ok r => exact ⟨n, hacc⟩
    | error e =>
      by_cases hlt : attempt < maxA
      · rw [if_pos hlt]
        refine ih (attempt + 1) (some e) (n + 1) _ (by omega) (by omega) ?_
        rw [List.reverse_cons, hacc, List.range_succ, List.map_append, hat]
        simp
      · rw [if_neg hlt]
        have hf : f = 0 := by omega
        subst hf
        exact ⟨n, by simp only [retryGo]; exact hacc⟩

theorem retryGo_all_fail {α : Type} (oracle : ℕ → Except FigmaClientError α)
    (maxA : ℕ) (errOf : ℕ → FigmaClientError) (hmax : 1 ≤ maxA) :
    ∀ fuel attempt lastErr acc, attempt + fuel = maxA + 1 → 1 ≤ attempt →
    (∀ n, attempt ≤ n → n ≤ maxA → oracle n = .error (errOf n)) →
    lastErr = (if attempt = 1 then none else some (errOf (attempt - 1))) →
    (retryGo oracle maxA fuel attempt lastErr acc).result
      = .error (some (errOf maxA)) := by
  intro fuel
  induction fuel with
  | zero =>
    intro attempt lastErr acc hinv hat _horacle hlast
    have h1 : attempt = maxA + 1 := by omega
    have h2 : attempt ≠ 1 := by omega
    rw [if_neg h2] at hlast
    simp only [retryGo, hlast, h1]
    norm_num
  | succ f ih =>
    intro attempt lastErr acc hinv hat horacle hlast
    have hle : attempt ≤ maxA := by omega
    simp only [retryGo, horacle attempt le_rfl hle]
    refine ih (attempt + 1) (some (errOf attempt)) _ (by omega) (by omega)
      (fun n hn hn' => horacle n (by omega) hn') ?_
    rw [if_neg (by omega)]
    simp

/-- C4: `makeRequest` never makes more attempts than the configured
`retryAttempts`; the delay slept after failed attempt `n` (that is, at index
`n − 1` of the delay list) is `min(1000·2^(n−1), 5000)` ms; and when every
attempt fails, the error of the last attempt is surfaced. -/
theorem makeRequest_retry_policy {α : Type} (oracle : ℕ → Except FigmaClientError α)
    (retryAttempts : ℕ) (errOf : ℕ → FigmaClientError) :
    (makeRequest oracle retryAttempts).attemptsMade ≤ retryAttempts ∧
    (∀ k (h : k < (makeRequest oracle retryAttempts).delays.length),
      (makeRequest oracle retryAttempts).delays.get ⟨k, h⟩ = min (1000 * 2 ^ k) 5000) ∧
    ((∀ n, 1 ≤ n → n ≤ retryAttempts → oracle n = .error (errOf n)) →
      1 ≤ retryAttempts →
      (makeRequest oracle retryAttempts).result = .error (some (errOf retryAttempts))) := by
  refine ⟨retryGo_attempts_le oracle retryAttempts retryAttempts 1 none [] (by omega),
    ?_, fun hfail hpos =>
      retryGo_all_fail oracle retryAttempts errOf hpos retryAttempts 1 none []
        (by omega) le_rfl (fun n hn hn' => hfail n hn hn') (by simp)⟩
  intro k h
  obtain ⟨m, hm⟩ := retryGo_delays_schedule oracle retryAttempts retryAttempts 1 none 0 []
    (by omega) rfl (by simp)
  unfold makeRequest at *
  rw [List.get_eq_getElem]
  simp only [hm]
  simp [backoffDelay]

/-- Witness for `makeRequest_retry_policy` with `retryAttempts = 3`: at most 3
attempts, delays `[1000, 2000]`, and the third attempt's error surfaced. -/
theorem makeRequest_retry_policy_witness :
    (makeRequest failingOracle 3).attemptsMade ≤ 3 ∧
    (makeRequest failingOracle 3).result
      = .error (some ⟨"Response timeout", "TIMEOUT", some 3⟩) ∧
    (makeRequest failingOracle 3).delays = [1000, 2000] := by
  have h := makeRequest_retry_policy failingOracle 3
    (fun n => ⟨"Response timeout", "TIMEOUT", some n⟩)
  exact ⟨h.1, h.2.2 (fun n _ _ => rfl) (by norm_num), by decide⟩

/-- C6 counterexample: a 503 on the transport-call POST raises the generic
`UNEXPECTED_RESPONSE` error, not `ServerUnavailable`; and even a 200 (a 2xx
status) is rejected on that path. -/
theorem sse_dispatch_503_not_classified :
    sseDispatchCheck 503
      = some ⟨"Unexpected session response: 503", "UNEXPECTED_RESPONSE", some 503⟩ ∧
    sseDispatchCheck 503 ≠ some FigmaServerUnavailableError ∧
    sseDispatchCheck 200 ≠ none := by
  refine ⟨rfl, ?_, ?_⟩ <;> decide

/-- C6 amended: on the transport-call POST (`makeRequestWithSSE`) only status
exactly 202 is accepted and every other status — 2xx included — raises
`UNEXPECTED_RESPONSE` carrying the status; the 503/401/other classification
applies to the connection-test POST (`makeSessionRequest`). -/
theorem session_post_status_classification (status : ℕ) :
    (sseDispatchCheck status = none ↔ status = 202) ∧
    (status ≠ 202 → sseDispatchCheck status
      = some ⟨"Unexpected session response: " ++ toString status,
              "UNEXPECTED_RESPONSE", some status⟩) ∧
    (responseOk status = false → makeSessionRequestStatusCheck status
      = (if status = 503 then some FigmaServerUnavailableError
         else if status = 401 then some FigmaAuthenticationError
         else some ⟨"HTTP " ++ toString status, "HTTP_ERROR", some status⟩)) := by
  refine ⟨?_, fun h => by simp [sseDispatchCheck, h], fun h => by simp [makeSessionRequestStatusCheck, h]⟩
  constructor
  · intro h
    by_contra hne
    simp [sseDispatchCheck, hne] at h
  · intro h
    simp [sseDispatchCheck, h]

/-- Witness for `session_post_status_classification` at statuses 500 and 503:
the connection-test POST classifies them, the transport-call POST does not. -/
theorem session_post_status_classification_witness :
    (sseDispatchCheck 500
      = some ⟨"Unexpected session response: 500", "UNEXPECTED_RESPONSE", some 500⟩) ∧
    (makeSessionRequestStatusCheck 500 = some ⟨"HTTP 500", "HTTP_ERROR", some 500⟩) ∧
    (makeSessionRequestStatusCheck 503 = some FigmaServerUnavailableError) := by
  refine ⟨(session_post_status_classification 500).2.1 (by decide), ?_, ?_⟩
  · have h := (session_post_status_classification 500).2.2 (by decide)
    rw [h]
    decide
  · have h := (session_post_status_classification 503).2.2 (by decide)
    rw [h]
    decide

/-- C9: `getEfficiencyScore` agrees with the claimed closed form on every
metric record, and a 20-second run with one timeout and nothing else scores
exactly 75. -/
theorem efficiency_score_formula :
    (∀ m : PerformanceMetrics, getEfficiencyScore m = specEfficiencyScore m) ∧
    getEfficiencyScore ⟨20000, true, 0, 0⟩ = 75 := by
  constructor
  · intro m
    unfold getEfficiencyScore specEfficiencyScore
    dsimp only
    rcases le_or_lt m.totalDuration 15000 with h | h
    · rw [if_neg (not_lt.mpr h)]
      have h0 : max 0 (m.totalDuration - 15000) = 0 := max_eq_left (by linarith)
      rw [h0]
      cases ht : m.timeoutOccurred <;> simp <;> ring_nf
    · rw [if_pos h]
      have h0 : max 0 (m.totalDuration - 15000) = m.totalDuration - 15000 :=
        max_eq_right (by linarith)
      rw [h0]
      cases ht : m.timeoutOccurred <;> simp <;> ring_nf
  · unfold getEfficiencyScore
    norm_num

/-- C8: `1311-9692` is classified complex while `12-34` is not, and for every
`maxWaitTime` in [5000, 60000] each level-1 stage timeout of the complex URL
is strictly below the corresponding default timeout of the simple URL. -/
theorem complex_layout_tighter_timeouts :
    detectComplexLayout (some urlComplexD) = true ∧
    detectComplexLayout (some urlSimpleD) = false ∧
    (∀ m : ℚ, 5000 ≤ m → m ≤ 60000 →
      (getStageTimeouts (inputWithWait urlComplexD m)).variables
        < (getStageTimeouts (inputWithWait urlSimpleD m)).variables ∧
      (getStageTimeouts (inputWithWait urlComplexD m)).components
        < (getStageTimeouts (inputWithWait urlSimpleD m)).components ∧
      (getStageTimeouts (inputWithWait urlComplexD m)).code
        < (getStageTimeouts (inputWithWait urlSimpleD m)).code) := by
  have hC : detectComplexLayout (some urlComplexD) = true := by decide
  have hS : detectComplexLayout (some urlSimpleD) = false := by decide
  refine ⟨hC, hS, ?_⟩
  intro m h1 _h2
  have hm : (0 : ℚ) < m := by linarith
  have hm0 : ¬ m = 0 := by linarith
  simp only [getStageTimeouts, inputWithWait, hC, hS, if_pos, if_neg, if_true,
    Bool.false_eq_true, if_false, DEFAULT_STAGE_TIMEOUTS, hm0]
  refine ⟨?_, ?_, ?_⟩
  · exact lt_min (lt_of_le_of_lt (min_le_left _ _) (by norm_num))
      (lt_of_le_of_lt (min_le_right _ _) (by linarith))
  · exact lt_min (lt_of_le_of_lt (min_le_left _ _) (by norm_num))
      (lt_of_le_of_lt (min_le_right _ _) (by linarith))
  · exact lt_min (lt_of_le_of_lt (min_le_left _ _) (by norm_num))
      (lt_of_le_of_lt (min_le_right _ _) (by linarith))

/-- Witness for `complex_layout_tighter_timeouts` at `maxWaitTime = 15000`. -/
theorem complex_layout_tighter_timeouts_witness :
    ((5000 : ℚ) ≤ 15000 ∧ (15000 : ℚ) ≤ 60000) ∧
    ((getStageTimeouts (inputWithWait urlComplexD 15000)).variables
        < (getStageTimeouts (inputWithWait urlSimpleD 15000)).variables ∧
      (getStageTimeouts (inputWithWait urlComplexD 15000)).components
        < (getStageTimeouts (inputWithWait urlSimpleD 15000)).components ∧
      (getStageTimeouts (inputWithWait urlComplexD 15000)).code
        < (getStageTimeouts (inputWithWait urlSimpleD 15000)).code) :=
  ⟨⟨by norm_num, by norm_num⟩,
   complex_layout_tighter_timeouts.2.2 15000 (by norm_num) (by norm_num)⟩

theorem dropWhile_cons_neg (c : Char) (t : Chars) (h : c.isWhitespace = false) :
    (c :: t).dropWhile Char.isWhitespace = c :: t := by
  simp [List.dropWhile, h]

theorem trimChars_of_ends (l : Chars) (c : Char) (t : Chars) (d : Char) (r : Chars)
    (h1 : l = c :: t) (h2 : l.reverse = d :: r)
    (hc : c.isWhitespace = false) (hd : d.isWhitespace = false) :
    trimChars l = l := by
  unfold trimChars
  rw [h1, dropWhile_cons_neg c t hc, ← h1, h2, dropWhile_cons_neg d r hd, ← h2,
    List.reverse_reverse]

theorem trimChars_label_append (label : Chars) (c : Char) (t : Chars)
    (hlab : label = c :: t) (hc : c.isWhitespace = false)
    (name : Chars) (hne : name.isEmpty = false)
    (hnws : name.all (fun x => !x.isWhitespace) = true) :
    trimChars (label ++ name) = label ++ name := by
  cases hrev : name.reverse with
  | nil =>
    rw [List.reverse_eq_nil_iff] at hrev
    subst hrev
    simp at hne
  | cons d r =>
    have hdmem : d ∈ name := by
      have : d ∈ name.reverse := by rw [hrev]; exact List.mem_cons_self _ _
      simpa using this
    have hd : d.isWhitespace = false := by
      have := List.all_eq_true.mp hnws d hdmem
      simpa using this
    refine trimChars_of_ends (label ++ name) c (t ++ name) d (r ++ label.reverse)
      ?_ ?_ hc hd
    · rw [hlab, List.cons_append]
    · rw [List.reverse_append, hrev, List.cons_append]

theorem charsStartsWith_append (p a b : Chars) :
    charsStartsWith (p ++ a) (p ++ b) = charsStartsWith a b := by
  induction p with
  | nil => rfl
  | cons c cs ih => simp [charsStartsWith, ih]

theorem charsStartsWith_self_append (p a : Chars) :
    charsStartsWith (p ++ a) p = true := by
  induction p with
  | nil => cases a <;> rfl
  | cons c cs ih => simp [charsStartsWith, ih]

theorem dataLine_not_event (data : Chars) :
    charsStartsWith ("data: ".toList ++ data) ("event: message".toList) = false := by
  rw [show (("data: ".toList : Chars) ++ data) = 'd' :: ("ata: ".toList ++ data) from rfl]
  rw [show ("event: message".toList : Chars) = 'e' :: "vent: message".toList from rfl]
  simp [charsStartsWith]

theorem dataLine_drop (data : Chars) : ("data: ".toList ++ data).drop 6 = data := by
  rw [show (6 : ℕ) = ("data: ".toList : Chars).length from rfl, List.drop_left]

theorem eventLine_cond (name : Chars) :
    charsStartsWith ("event: ".toList ++ name) ("event: message".toList)
      = charsStartsWith name ("message".toList) := by
  rw [show ("event: message".toList : Chars) = "event: ".toList ++ "message".toList from rfl,
    charsStartsWith_append]

/-- On a stream of well-formed frames, the correlation scan accepts exactly
the first frame with a `message` event and a truthy `result`/`error`. -/
theorem scanLines_streamLines (parse : Chars → Option RpcData) (fs : List Frame)
    (hwf : ∀ f ∈ fs, wellFormedFrame f = true) :
    scanLines parse (streamLines fs) = firstAccepted parse fs := by
  induction fs with
  | nil => rfl
  | cons f fs ih =>
    have hf := hwf f (List.mem_cons_self _ _)
    have hrest := fun g hg => hwf g (List.mem_cons_of_mem f hg)
    have hih := ih hrest
    simp only [wellFormedFrame, Bool.and_eq_true, Bool.not_eq_true'] at hf
    obtain ⟨⟨⟨hne, hnws⟩, hdne⟩, hdnws⟩ := hf
    have hstream : streamLines (f :: fs)
        = ("event: ".toList ++ f.eventName) :: ("data: ".toList ++ f.data)
          :: [] :: streamLines fs := by
      simp [streamLines, frameLines]
    have htrimEv := trimChars_label_append ("event: ".toList) 'e' ("vent: ".toList)
      rfl (by decide) f.eventName hne hnws
    have htrimData := trimChars_label_append ("data: ".toList) 'd' ("ata: ".toList)
      rfl (by decide) f.data hdne hdnws
    have hdataNonempty : (("data: ".toList : Chars) ++ f.data).isEmpty = false := rfl
    rw [show scanLines parse (streamLines (f :: fs))
        = scanGo parse false (streamLines (f :: fs)) from rfl, hstream]
    by_cases hmsg : charsStartsWith f.eventName ("message".toList) = true
    · -- the frame is a message frame
      rw [show scanGo parse false (("event: ".toList ++ f.eventName)
            :: ("data: ".toList ++ f.data) :: [] :: streamLines fs)
          = if charsStartsWith (trimChars ("event: ".toList ++ f.eventName))
                ("event: message".toList) then
              scanGo parse true (("data: ".toList ++ f.data) :: [] :: streamLines fs)
            else scanGo parse false (("data: ".toList ++ f.data) :: [] :: streamLines fs)
          from rfl]
      rw [htrimEv, eventLine_cond, hmsg, if_pos rfl]
      rw [show scanGo parse true (("data: ".toList ++ f.data) :: [] :: streamLines fs)
          = if (trimChars ("data: ".toList ++ f.data)).isEmpty then
              scanGo parse true ([] :: streamLines fs)
            else if charsStartsWith ("data: ".toList ++ f.data) ("data: ".toList) then
              match parse (("data: ".toList ++ f.data).drop 6) with
              | some d => if isTruthyResponse d then some d
                          else scanGo parse false ([] :: streamLines fs)
              | none => scanGo parse false ([] :: streamLines fs)
            else scanGo parse false ([] :: streamLines fs)
          from rfl]
      rw [htrimData]
      rw [hdataNonempty]
      rw [charsStartsWith_self_append, dataLine_drop]
      have hblank : scanGo parse false ([] :: streamLines fs)
          = scanGo parse false (streamLines fs) := rfl
      rw [firstAccepted, acceptsFrame, if_pos hmsg]
      simp only [Bool.false_eq_true, if_false, hblank]
      cases hp : parse f.data with
      | none => exact hih
      | some d =>
        by_cases htr : isTruthyResponse d = true
        · simp [htr]
        · simp [htr]
          exact hih
    · -- not a message frame: skip all three lines
      rw [show scanGo parse false (("event: ".toList ++ f.eventName)
            :: ("data: ".toList ++ f.data) :: [] :: streamLines fs)
          = if charsStartsWith (trimChars ("event: ".toList ++ f.eventName))
                ("event: message".toList) then
              scanGo parse true (("data: ".toList ++ f.data) :: [] :: streamLines fs)
            else scanGo parse false (("data: ".toList ++ f.data) :: [] :: streamLines fs)
          from rfl]
      rw [htrimEv, eventLine_cond]
      simp only [hmsg, if_false, Bool.false_eq_true]
      rw [show scanGo parse false (("data: ".toList ++ f.data) :: [] :: streamLines fs)
          = if charsStartsWith (trimChars ("data: ".toList ++ f.data))
                ("event: message".toList) then
              scanGo parse true ([] :: streamLines fs)
            else scanGo parse false ([] :: streamLines fs)
          from rfl]
      rw [htrimData, dataLine_not_event]
      simp only [Bool.false_eq_true, if_false]
      rw [show scanGo parse false ([] :: streamLines fs)
          = scanGo parse false (streamLines fs) from rfl]
      rw [firstAccepted, acceptsFrame]
      simp only [hmsg, if_false, Bool.false_eq_true]
      exact hih

theorem listenChunks_id_override (parse : Chars → Option RpcData) (requestId : Nat) :
    ∀ chunks buffer d, listenChunks parse requestId buffer chunks = .ok d →
      d.id = some requestId := by
  intro chunks
  induction chunks with
  | nil =>
    intro buffer d h
    simp [listenChunks] at h
  | cons c cs ih =>
    intro buffer d h
    simp only [listenChunks] at h
    by_cases hce : c.isEmpty
    · rw [if_pos hce] at h
      exact ih _ _ h
    · rw [if_neg hce] at h
      cases hs : scanLines parse ((splitOnNewline (buffer ++ c)).dropLast) with
      | some e =>
        rw [hs] at h
        simp only [Except.ok.injEq] at h
        subst h
        rfl
      | none =>
        rw [hs] at h
        exact ih _ _ h

/-- C3 amended: the accepted response is the first `event: message` frame
whose data line parses as JSON and has a JavaScript-truthy `result` or `error`
field (field presence alone does not suffice); no response-id matching is
required or performed, exactly one response is accepted per call, and the
accepted response's id is overwritten with the request's id. -/
theorem response_correlation (parse : Chars → Option RpcData) (requestId : Nat)
    (fs : List Frame) (hwf : ∀ f ∈ fs, wellFormedFrame f = true) :
    scanLines parse (streamLines fs) = firstAccepted parse fs ∧
    (∀ buffer chunks d, listenChunks parse requestId buffer chunks = .ok d →
      d.id = some requestId) :=
  ⟨scanLines_streamLines parse fs hwf,
   fun buffer chunks d h => listenChunks_id_override parse requestId chunks buffer d h⟩

/-- C3 counterexample: the code skips the first `message` frame although its
data contains a `result` field (it is falsy) and accepts the second frame, so
"contains a result or error field" is not the acceptance criterion. -/
theorem correlation_requires_truthiness :
    scanLines parseCE (streamLines fsCE) = some { id := some 8, result := some true } ∧
    specFirstWithField parseCE fsCE = some { id := some 7, result := some false } ∧
    scanLines parseCE (streamLines fsCE) ≠ specFirstWithField parseCE fsCE := by
  decide

/-- Witness for `response_correlation` at the concrete two-frame stream: the
scan agrees with the first-truthy-frame search, and a response accepted from a
chunked stream carries the request id 42 (the server sent id 8). -/
theorem response_correlation_witness :
    scanLines parseCE (streamLines fsCE) = firstAccepted parseCE fsCE ∧
    ({ id := some 42, result := some true } : RpcData).id = some 42 := by
  have h := response_correlation parseCE 42 fsCE (by decide)
  exact ⟨h.1, h.2 [] ["event: message\ndata: B\n\n".toList]
    { id := some 42, result := some true } rfl⟩

end FigmaBridge
